import Mathlib

/-!
Verification of the DigitalOcean provisioning-account core
(`digitalocean_account.ts` of the Outline server manager).

Strings of the TypeScript source are modelled as `List Char`
(sequences of unicode scalar values); JavaScript numbers that are
used as non-negative integers are modelled as `Nat`.  Asynchronous
provider calls are modelled by passing the provider's response in as
an explicit argument and recording the calls that were issued in an
explicit trace, so that every operation is a pure function from
(state, inputs, provider responses) to (result, state, trace).
-/

namespace Outline

/-! ## Character classes -/

/-- The whitespace set removed by JavaScript `String.prototype.trim`
(ECMA-262 WhiteSpace and LineTerminator code points). -/
def isJsWhitespace (c : Char) : Bool :=
  decide ((9 ≤ c.toNat ∧ c.toNat ≤ 13) ∨ c.toNat = 32 ∨ c.toNat = 160 ∨
    c.toNat = 0xfeff ∨ c.toNat = 0x1680 ∨ (0x2000 ≤ c.toNat ∧ c.toNat ≤ 0x200a) ∨
    c.toNat = 0x2028 ∨ c.toNat = 0x2029 ∨ c.toNat = 0x202f ∨ c.toNat = 0x205f ∨
    c.toNat = 0x3000)

/-- Character class of the allow-list regex (ASCII letters, digits, underscore,
slash and hyphen) in `sanitizeDigitalOceanToken`. -/
def isAllowedTokenChar (c : Char) : Bool :=
  decide ((65 ≤ c.toNat ∧ c.toNat ≤ 90) ∨ (97 ≤ c.toNat ∧ c.toNat ≤ 122) ∨
    (48 ≤ c.toNat ∧ c.toNat ≤ 57) ∨ c.toNat = 95 ∨ c.toNat = 47 ∨ c.toNat = 45)

/-- JavaScript `String.prototype.trim`: drop whitespace from both ends. -/
def trim (s : List Char) : List Char :=
  ((s.dropWhile isJsWhitespace).reverse.dropWhile isJsWhitespace).reverse

/-! ## Errors -/

/-- Opaque transport-level failure of the provider session. -/
structure TransportError where
  code : Nat
deriving DecidableEq

/-- Failures surfaced by the account operations: the sanitizer's
`Invalid DigitalOcean Token` error (the spec's `InvalidCredential`),
or a provider-session failure propagated unchanged. -/
inductive DOError where
  | invalidCredential
  | transport (e : TransportError)
deriving DecidableEq

/-! ## Token sanitizer (`sanitizeDigitalOceanToken`) -/

/-- `sanitizeDigitalOceanToken`: trim the input, test it against
the allow-list pattern (one or more ASCII letters, digits, underscores,
slashes or hyphens), throw on failure, return the trimmed input otherwise. -/
def sanitizeDigitalOceanToken (input : List Char) : Except DOError (List Char) :=
  if (trim input).isEmpty || !(trim input).all isAllowedTokenChar then
    .error .invalidCredential
  else
    .ok (trim input)

/-! ## Name escaping (`bashEscape`) -/

/-- ASCII test matched by the complement of the regex class
`\P{ASCII}` used in `bashEscape`. -/
def isAsciiChar (c : Char) : Bool :=
  decide (c.toNat < 128)

/-- Lowercase hex digit, as produced by JavaScript `Number.prototype.toString(16)`. -/
def hexDigit (n : Nat) : Char :=
  if n < 10 then Char.ofNat (48 + n) else Char.ofNat (87 + n)

/-- Four-digit zero-padded lowercase hex rendering, as produced by
`toString(16).padStart(4, '0')` on a UTF-16 code unit (a value below 0x10000). -/
def hex4 (v : Nat) : List Char :=
  [hexDigit (v / 4096 % 16), hexDigit (v / 256 % 16), hexDigit (v / 16 % 16),
   hexDigit (v % 16)]

/-- JavaScript `c.charCodeAt(0)` on the one-code-point string `c` matched by
the regex: the code point itself when it is in the Basic Multilingual Plane,
and the leading (high) UTF-16 surrogate otherwise. -/
def charCodeAt0 (c : Char) : Nat :=
  if c.toNat < 0x10000 then c.toNat else 0xd800 + (c.toNat - 0x10000) / 1024

/-- Replacement applied by `bashEscape` to a single code point. -/
def encChar (c : Char) : List Char :=
  if isAsciiChar c then [c] else '\\' :: 'u' :: hex4 (charCodeAt0 c)

/-- `bashEscape`: replace each non-ASCII code point of the input with a
backslash-u escape built from `charCodeAt(0)`. -/
def bashEscape : List Char → List Char
  | [] => []
  | c :: t => encChar c ++ bashEscape t

/-! ## The decoding transform of the round-trip law

The spec's round-trip law speaks of decoding every backslash-u escape of the
escaped string back to its scalar value, leaving ASCII untouched (this is what
the shell's unicode-aware `printf` does to the generated literal).  The
decoder below is modelled from that description: a left-to-right scan that
replaces each pattern of backslash, `u` and four hex digits by the character
with that code, and copies every other character. -/

/-- Hex digit test (both cases), for recognising a backslash-u escape. -/
def isHexDigit (c : Char) : Bool :=
  decide ((48 ≤ c.toNat ∧ c.toNat ≤ 57) ∨ (97 ≤ c.toNat ∧ c.toNat ≤ 102) ∨
    (65 ≤ c.toNat ∧ c.toNat ≤ 70))

/-- Value of a hex digit. -/
def hexVal (c : Char) : Nat :=
  if c.toNat ≤ 57 then c.toNat - 48
  else if c.toNat ≤ 70 then c.toNat - 55
  else c.toNat - 87

/-- Modelled from the spec: decode every backslash-u + 4-hex-digit escape
sequence back to the character with that code, leaving every other character
untouched (the interpretation applied by the shell's own unicode-aware print
primitive; this code is outside the repository). -/
def decode : List Char → List Char
  | x :: u :: a :: b :: c :: d :: rest =>
    if x == '\\' && u == 'u' && isHexDigit a && isHexDigit b && isHexDigit c
        && isHexDigit d then
      Char.ofNat (4096 * hexVal a + 256 * hexVal b + 16 * hexVal c + hexVal d)
        :: decode rest
    else
      x :: decode (u :: a :: b :: c :: d :: rest)
  | x :: xs => x :: decode xs
  | [] => []

/-- A backslash-u escape pattern starts at the head of the list. -/
def isEscStart : List Char → Bool
  | x :: u :: a :: b :: c :: d :: _ =>
    x == '\\' && u == 'u' && isHexDigit a && isHexDigit b && isHexDigit c
      && isHexDigit d
  | _ => false

/-- No backslash-u escape pattern occurs anywhere in the list. -/
def noEsc : List Char → Bool
  | [] => true
  | x :: xs => !isEscStart (x :: xs) && noEsc xs

/-! ## Install-script builder (`getInstallScript`) -/

/-- The fixed tag attached to every created droplet (`SHADOWBOX_TAG`). -/
def SHADOWBOX_TAG : List Char := "shadowbox".data

/-- The fixed target machine size (`MACHINE_SIZE`). -/
def MACHINE_SIZE : List Char := "s-1vcpu-1gb".data

/-- Decimal rendering of a number interpolated into a template literal. -/
def natChars (n : Nat) : List Char := (toString n).data

/-- The settings bundle (`ShadowboxSettings`): `sentryApiUrl` and
`watchtowerRefreshSeconds` are optional fields of the TypeScript interface. -/
structure ShadowboxSettings where
  imageId : List Char
  metricsUrl : List Char
  sentryApiUrl : Option (List Char)
  watchtowerRefreshSeconds : Option Nat
deriving DecidableEq

/-- The `DO_ACCESS_TOKEN` export line. -/
def tokenLine (t : List Char) : List Char :=
  "export DO_ACCESS_TOKEN='".data ++ t ++ "'\n".data

/-- The conditional `SB_IMAGE` fragment; JavaScript truthiness of a string
is non-emptiness. -/
def imageSeg (st : ShadowboxSettings) : List Char :=
  if st.imageId.isEmpty then [] else
    "export SB_IMAGE='".data ++ st.imageId ++ "'\n".data

/-- The conditional `WATCHTOWER_REFRESH_SECONDS` fragment; JavaScript
truthiness of a number is being present and non-zero. -/
def wtSeg (st : ShadowboxSettings) : List Char :=
  match st.watchtowerRefreshSeconds with
  | some n =>
    if n = 0 then [] else
      "export WATCHTOWER_REFRESH_SECONDS='".data ++ natChars n ++ "'\n".data
  | none => []

/-- The conditional `SENTRY_API_URL` fragment. -/
def sentrySeg (st : ShadowboxSettings) : List Char :=
  match st.sentryApiUrl with
  | some u =>
    if u.isEmpty then [] else "export SENTRY_API_URL='".data ++ u ++ "'\n".data
  | none => []

/-- The conditional `SB_METRICS_URL` fragment. -/
def metricsSeg (st : ShadowboxSettings) : List Char :=
  if st.metricsUrl.isEmpty then [] else
    "export SB_METRICS_URL='".data ++ st.metricsUrl ++ "'\n".data

/-- The `SB_DEFAULT_SERVER_NAME` line, built from the escaped name. -/
def nameLine (name : List Char) : List Char :=
  "export SB_DEFAULT_SERVER_NAME=\"$(printf '".data ++ bashEscape name
    ++ "')\"\n".data

/-- Modelled from the spec: `do_install_script.SCRIPT`, the fixed, externally
supplied bootstrap payload appended verbatim to every generated script; its
literal contents are out of scope of this core and are not under `src/`. -/
def SCRIPT : List Char := "# fixed install payload\n".data

/-- `getInstallScript`: sanitize the token (propagating its failure), then
concatenate the shebang line, the token export, the four conditional setting
exports, the escaped default-server-name line and the fixed payload. -/
def getInstallScript (accessToken name : List Char) (st : ShadowboxSettings) :
    Except DOError (List Char) :=
  (sanitizeDigitalOceanToken accessToken).map fun sanitizedAccessToken =>
    "#!/bin/bash -eu\n".data ++ tokenLine sanitizedAccessToken ++ imageSeg st
      ++ wtSeg st ++ sentrySeg st ++ metricsSeg st ++ nameLine name ++ SCRIPT

/-- The generated script of an `Except`-valued build, or `[]` on failure. -/
def scriptOf (accessToken name : List Char) (st : ShadowboxSettings) : List Char :=
  match getInstallScript accessToken name st with
  | .ok s => s
  | .error _ => []

/-! ## Provider data model -/

/-- A provider instance descriptor (`DropletInfo`); only the numeric id is
interpreted by this core, the rest is carried opaquely. -/
structure DropletInfo where
  id : Nat
deriving DecidableEq

/-- Raw provider region data (`RegionInfo` of the REST API). -/
structure RegionInfo where
  slug : List Char
  available : Bool
  sizes : List (List Char)
deriving DecidableEq

/-- A typed location (`digitalocean.Region`), identified by its slug. -/
structure Region where
  id : List Char
deriving DecidableEq

/-- A region paired with its derived availability (`digitalocean.RegionOption`). -/
structure RegionOption where
  cloudLocation : Region
  available : Bool
deriving DecidableEq

/-- Raw account fields returned by the provider's `getAccount`. -/
structure DOAccountInfo where
  email : List Char
  status : List Char
  email_verified : Bool
deriving DecidableEq

/-- Account health states (`digitalocean.Status`). -/
inductive Status where
  | ACTIVE
  | EMAIL_UNVERIFIED
  | MISSING_BILLING_INFORMATION
deriving DecidableEq

/-- A key pair produced by the crypto collaborator. -/
structure KeyPair where
  publicKey : List Char
  privateKey : List Char
deriving DecidableEq

/-- The droplet creation spec passed to `createDroplet`. -/
structure DropletSpec where
  installCommand : List Char
  size : List Char
  image : List Char
  tags : List (List Char)
deriving DecidableEq

/-- A recorded invocation of the provider session. -/
inductive ProviderCall where
  | createDroplet (name : List Char) (regionId : List Char)
      (publicKey : List Char) (spec : DropletSpec)
  | getDropletsByTag (tag : List Char)
deriving DecidableEq

/-! ## The account (`DigitalOceanAccount`) -/

/-- A wrapped managed server (`DigitalOceanServer`): the composite key and the
descriptor it was built from. -/
structure DigitalOceanServer where
  id : List Char
  dropletInfo : DropletInfo
deriving DecidableEq

/-- The mutable state of a `DigitalOceanAccount`. -/
structure DigitalOceanAccount where
  id : List Char
  accessToken : List Char
  shadowboxSettings : ShadowboxSettings
  debugMode : Bool
  servers : List DigitalOceanServer
deriving DecidableEq

/-- `getStatus` applied to the provider's account response: `active` wins,
then unverified email, then missing billing information. -/
def getStatus (account : DOAccountInfo) : Status :=
  if account.status = "active".data then .ACTIVE
  else if !account.email_verified then .EMAIL_UNVERIFIED
  else .MISSING_BILLING_INFORMATION

/-- `listLocations` applied to the provider's region response: one
`RegionOption` per input region, in order, available exactly when the region
is available and offers `MACHINE_SIZE`. -/
def listLocations (regions : List RegionInfo) : List RegionOption :=
  regions.map fun info =>
    { cloudLocation := ⟨info.slug⟩,
      available := info.available && info.sizes.contains MACHINE_SIZE }

/-- `createDigitalOceanServer` without the registry push: wrap a descriptor
into a `DigitalOceanServer` keyed by account id, colon, droplet id. -/
def makeServer (accountId : List Char) (droplet : DropletInfo) : DigitalOceanServer :=
  ⟨accountId ++ ':' :: natChars droplet.id, droplet⟩

/-- Decidable equality of `Except` results, for evaluating concrete outcomes. -/
instance {ε α : Type} [DecidableEq ε] [DecidableEq α] : DecidableEq (Except ε α)
  | .error e, .error f =>
    if h : e = f then .isTrue (by rw [h])
    else .isFalse (by intro hc; cases hc; exact h rfl)
  | .error _, .ok _ => .isFalse (by intro hc; cases hc)
  | .ok _, .error _ => .isFalse (by intro hc; cases hc)
  | .ok a, .ok b =>
    if h : a = b then .isTrue (by rw [h])
    else .isFalse (by intro hc; cases hc; exact h rfl)

/-- Outcome of a `createServer` call: the returned value or error, the account
state after the call, and the provider-session invocations made. -/
structure CreateOutcome where
  result : Except DOError DigitalOceanServer
  account : DigitalOceanAccount
  calls : List ProviderCall
deriving DecidableEq

/-- `createServer`: build the install command (whose sanitization failure is
thrown before any provider call), then submit `createDroplet` with the fixed
size, image and tag, and on success wrap the returned droplet and append it
to the registry.  The provider's response is passed in explicitly; the key
pair is the value produced by the crypto collaborator. -/
def createServer (acct : DigitalOceanAccount) (region : Region)
    (name : List Char) (keyPair : KeyPair)
    (createDropletResponse : Except TransportError DropletInfo) : CreateOutcome :=
  match getInstallScript acct.accessToken name acct.shadowboxSettings with
  | .error e => ⟨.error e, acct, []⟩
  | .ok installCommand =>
    let dropletSpec : DropletSpec :=
      ⟨installCommand, MACHINE_SIZE, "docker-18-04".data, [SHADOWBOX_TAG]⟩
    let call := ProviderCall.createDroplet name region.id keyPair.publicKey dropletSpec
    match createDropletResponse with
    | .error e => ⟨.error (.transport e), acct, [call]⟩
    | .ok droplet =>
      let srv := makeServer acct.id droplet
      ⟨.ok srv, { acct with servers := acct.servers ++ [srv] }, [call]⟩

/-- Outcome of a `listServers` call. -/
structure ListOutcome where
  result : Except DOError (List DigitalOceanServer)
  account : DigitalOceanAccount
  calls : List ProviderCall
deriving DecidableEq

/-- `listServers`: with `fetchFromHost = false` return the in-memory registry;
otherwise query the droplets carrying `SHADOWBOX_TAG`, reset the registry and
refill it with freshly wrapped servers, returning the new list. -/
def listServers (acct : DigitalOceanAccount) (fetchFromHost : Bool)
    (response : Except TransportError (List DropletInfo)) : ListOutcome :=
  if !fetchFromHost then ⟨.ok acct.servers, acct, []⟩
  else
    match response with
    | .error e => ⟨.error (.transport e), acct, [.getDropletsByTag SHADOWBOX_TAG]⟩
    | .ok droplets =>
      let newServers := droplets.map (makeServer acct.id)
      ⟨.ok newServers, { acct with servers := newServers },
        [.getDropletsByTag SHADOWBOX_TAG]⟩

/-! ## Lemmas about trimming -/

theorem allowed_not_whitespace {c : Char} (h : isAllowedTokenChar c = true) :
    isJsWhitespace c = false := by
  simp only [isAllowedTokenChar, decide_eq_true_eq] at h
  simp only [isJsWhitespace, decide_eq_false_iff_not]
  omega

theorem trim_sandwich (ws1 core ws2 : List Char)
    (h1 : ∀ c ∈ ws1, isJsWhitespace c = true)
    (h2 : ∀ c ∈ ws2, isJsWhitespace c = true)
    (hne : core ≠ [])
    (hcore : ∀ c ∈ core, isAllowedTokenChar c = true) :
    trim (ws1 ++ core ++ ws2) = core := by
  match core, hne with
  | c0 :: core', _ =>
    have hstep1 : (ws1 ++ (c0 :: core') ++ ws2).dropWhile isJsWhitespace
        = (c0 :: core') ++ ws2 := by
      rw [List.append_assoc, List.dropWhile_append_of_pos h1]
      have hc0 : isJsWhitespace c0 = false :=
        allowed_not_whitespace (hcore c0 (List.mem_cons_self c0 core'))
      simp [List.dropWhile_cons, hc0]
    unfold trim
    rw [hstep1]
    rw [List.reverse_append]
    have h2' : ∀ c ∈ ws2.reverse, isJsWhitespace c = true := by
      intro c hc; exact h2 c (List.mem_reverse.mp hc)
    rw [List.dropWhile_append_of_pos h2']
    cases hrev : (c0 :: core').reverse with
    | nil => exact absurd hrev (by simp)
    | cons b bs =>
      have hb : b ∈ c0 :: core' := by
        rw [← List.mem_reverse, hrev]; exact List.mem_cons_self b bs
      have hbw : isJsWhitespace b = false := allowed_not_whitespace (hcore b hb)
      rw [List.dropWhile_cons_of_neg (by simp [hbw]), ← hrev, List.reverse_reverse]

/-- C1 — Token sanitization: any token made of allow-list characters with
optional surrounding whitespace is accepted and returned trimmed; any token
whose trimmed value is empty or contains a disallowed character is rejected
with the `InvalidCredential` error. -/
theorem sanitize_spec :
    (∀ ws1 core ws2 : List Char,
      (∀ c ∈ ws1, isJsWhitespace c = true) → (∀ c ∈ ws2, isJsWhitespace c = true) →
      core ≠ [] → (∀ c ∈ core, isAllowedTokenChar c = true) →
      sanitizeDigitalOceanToken (ws1 ++ core ++ ws2) = .ok core)
    ∧ (∀ s : List Char,
      (trim s = [] ∨ ∃ c ∈ trim s, isAllowedTokenChar c = false) →
      sanitizeDigitalOceanToken s = .error .invalidCredential) := by
  constructor
  · intro ws1 core ws2 h1 h2 hne hcore
    unfold sanitizeDigitalOceanToken
    rw [trim_sandwich ws1 core ws2 h1 h2 hne hcore]
    have hall : core.all isAllowedTokenChar = true := List.all_eq_true.mpr hcore
    have hemp : core.isEmpty = false := by
      cases core with
      | nil => exact absurd rfl hne
      | cons a t => rfl
    simp [hemp, hall]
  · intro s h
    unfold sanitizeDigitalOceanToken
    rcases h with h | ⟨c, hc, hbad⟩
    · simp [h]
    · have hall : (trim s).all isAllowedTokenChar = false := by
        rcases hfull : (trim s).all isAllowedTokenChar with _ | _
        · rfl
        · exact absurd (List.all_eq_true.mp hfull c hc) (by simp [hbad])
      simp [hall]

/-- Closed instance of `sanitize_spec` at concrete inputs. -/
theorem sanitize_spec_witness :
    sanitizeDigitalOceanToken (" ".data ++ "Ab9/x_-".data ++ "\t".data)
      = .ok "Ab9/x_-".data
    ∧ sanitizeDigitalOceanToken "a'b".data = .error .invalidCredential :=
  ⟨sanitize_spec.1 " ".data "Ab9/x_-".data "\t".data (by decide) (by decide)
      (by decide) (by decide),
   sanitize_spec.2 "a'b".data (Or.inr ⟨'\'', by decide, by decide⟩)⟩

/-! ## Lemmas about escaping and decoding -/

theorem isHexDigit_hexDigit : ∀ n < 16, isHexDigit (hexDigit n) = true := by decide

theorem hexVal_hexDigit : ∀ n < 16, hexVal (hexDigit n) = n := by decide

theorem hexDigit_props {c : Char} (h : isHexDigit c = true) :
    isAsciiChar c = true ∧ c ≠ '\\' := by
  constructor
  · simp only [isHexDigit, decide_eq_true_eq] at h
    simp only [isAsciiChar, decide_eq_true_eq]
    omega
  · intro he
    subst he
    exact absurd h (by decide)

theorem decode_cons (x : Char) (xs : List Char)
    (h : isEscStart (x :: xs) = false) : decode (x :: xs) = x :: decode xs := by
  match xs with
  | [] => rfl
  | [u] => rfl
  | [u, a] => rfl
  | [u, a, b] => rfl
  | [u, a, b, c] => rfl
  | u :: a :: b :: c :: d :: rest =>
    have h' : (x == '\\' && u == 'u' && isHexDigit a && isHexDigit b
        && isHexDigit c && isHexDigit d) = false := h
    rw [decode, if_neg (by simp [h'])]

theorem decode_escape (a b c d : Char) (rest : List Char)
    (ha : isHexDigit a = true) (hb : isHexDigit b = true)
    (hc : isHexDigit c = true) (hd : isHexDigit d = true) :
    decode ('\\' :: 'u' :: a :: b :: c :: d :: rest)
      = Char.ofNat (4096 * hexVal a + 256 * hexVal b + 16 * hexVal c + hexVal d)
        :: decode rest := by
  rw [decode, if_pos (by simp [ha, hb, hc, hd])]

theorem isEscStart_true {l : List Char} (h : isEscStart l = true) :
    ∃ a b c d rest, l = '\\' :: 'u' :: a :: b :: c :: d :: rest ∧
      isHexDigit a = true ∧ isHexDigit b = true ∧ isHexDigit c = true ∧
      isHexDigit d = true := by
  match l with
  | [] | [x] | [x, u] | [x, u, a] | [x, u, a, b] | [x, u, a, b, c] =>
    exact absurd h (by simp [isEscStart])
  | x :: u :: a :: b :: c :: d :: rest =>
    simp only [isEscStart, Bool.and_eq_true, beq_iff_eq] at h
    obtain ⟨⟨⟨⟨⟨rfl, rfl⟩, ha⟩, hb⟩, hc⟩, hd⟩ := h
    exact ⟨a, b, c, d, rest, rfl, ha, hb, hc, hd⟩

theorem noEsc_cons {x : Char} {xs : List Char} (h : noEsc (x :: xs) = true) :
    isEscStart (x :: xs) = false ∧ noEsc xs = true := by
  rw [noEsc, Bool.and_eq_true, Bool.not_eq_true'] at h
  exact h

theorem bashEscape_cons_of_ne {t : List Char} {x : Char} {xs : List Char}
    (h : bashEscape t = x :: xs) (hx : x ≠ '\\') :
    ∃ t', t = x :: t' ∧ bashEscape t' = xs := by
  cases t with
  | nil => exact absurd h (by simp [bashEscape])
  | cons c t' =>
    by_cases hc : isAsciiChar c = true
    · rw [bashEscape, encChar, if_pos hc] at h
      obtain ⟨rfl, rfl⟩ := List.cons.inj h
      exact ⟨t', rfl, rfl⟩
    · rw [bashEscape, encChar, if_neg hc] at h
      exact absurd (List.cons.inj h).1.symm hx

theorem isEscStart_ascii_bashEscape (c : Char) (t : List Char)
    (hs : noEsc (c :: t) = true) :
    isEscStart (c :: bashEscape t) = false := by
  by_contra hcon
  rw [Bool.not_eq_false] at hcon
  obtain ⟨a, b, c', d, rest, heq, ha, hb, hc', hd⟩ := isEscStart_true hcon
  obtain ⟨h1, h2⟩ := List.cons.inj heq
  obtain ⟨t1, rfl, h3⟩ := bashEscape_cons_of_ne h2 (by decide)
  obtain ⟨t2, rfl, h4⟩ := bashEscape_cons_of_ne h3 (hexDigit_props ha).2
  obtain ⟨t3, rfl, h5⟩ := bashEscape_cons_of_ne h4 (hexDigit_props hb).2
  obtain ⟨t4, rfl, h6⟩ := bashEscape_cons_of_ne h5 (hexDigit_props hc').2
  obtain ⟨t5, rfl, h7⟩ := bashEscape_cons_of_ne h6 (hexDigit_props hd).2
  subst h1
  have hstart : isEscStart ('\\' :: 'u' :: a :: b :: c' :: d :: t5) = true := by
    simp [isEscStart, ha, hb, hc', hd]
  exact absurd hstart (by simp [(noEsc_cons hs).1])

theorem decode_bashEscape (s : List Char)
    (hBMP : ∀ c ∈ s, c.toNat < 0x10000) (hNo : noEsc s = true) :
    decode (bashEscape s) = s := by
  induction s with
  | nil => rfl
  | cons c t ih =>
    have hrest := ih (fun x hx => hBMP x (List.mem_cons_of_mem c hx))
      (noEsc_cons hNo).2
    by_cases hc : isAsciiChar c = true
    · have he : bashEscape (c :: t) = c :: bashEscape t := by
        rw [bashEscape, encChar, if_pos hc]; rfl
      rw [he, decode_cons c _ (isEscStart_ascii_bashEscape c t hNo), hrest]
    · have hlt : c.toNat < 0x10000 := hBMP c (List.mem_cons_self c t)
      have he : bashEscape (c :: t) = '\\' :: 'u' :: hexDigit (c.toNat / 4096 % 16)
          :: hexDigit (c.toNat / 256 % 16) :: hexDigit (c.toNat / 16 % 16)
          :: hexDigit (c.toNat % 16) :: bashEscape t := by
        rw [bashEscape, encChar, if_neg hc, charCodeAt0, if_pos hlt]; rfl
      rw [he, decode_escape _ _ _ _ _
        (isHexDigit_hexDigit _ (Nat.mod_lt _ (by omega)))
        (isHexDigit_hexDigit _ (Nat.mod_lt _ (by omega)))
        (isHexDigit_hexDigit _ (Nat.mod_lt _ (by omega)))
        (isHexDigit_hexDigit _ (Nat.mod_lt _ (by omega)))]
      rw [hexVal_hexDigit _ (Nat.mod_lt _ (by omega)),
        hexVal_hexDigit _ (Nat.mod_lt _ (by omega)),
        hexVal_hexDigit _ (Nat.mod_lt _ (by omega)),
        hexVal_hexDigit _ (Nat.mod_lt _ (by omega))]
      have hv : 4096 * (c.toNat / 4096 % 16) + 256 * (c.toNat / 256 % 16)
          + 16 * (c.toNat / 16 % 16) + c.toNat % 16 = c.toNat := by omega
      rw [hv, Char.ofNat_toNat, hrest]

theorem bashEscape_of_ascii (s : List Char)
    (h : ∀ c ∈ s, isAsciiChar c = true) : bashEscape s = s := by
  induction s with
  | nil => rfl
  | cons c t ih =>
    rw [bashEscape, encChar, if_pos (h c (List.mem_cons_self c t))]
    rw [ih (fun x hx => h x (List.mem_cons_of_mem c hx))]
    rfl

/-- C2 (amended) — Round trip of name escaping: for every string whose code
points all lie in the Basic Multilingual Plane and in which no literal
backslash-u + 4-hex-digit pattern occurs, escaping then decoding every
backslash-u escape reproduces the string exactly; and every ASCII-only
string is escaped identically to itself. -/
theorem bashEscape_roundtrip (s : List Char)
    (hBMP : ∀ c ∈ s, c.toNat < 0x10000) (hNo : noEsc s = true) :
    decode (bashEscape s) = s
    ∧ ((∀ c ∈ s, isAsciiChar c = true) → bashEscape s = s) :=
  ⟨decode_bashEscape s hBMP hNo, bashEscape_of_ascii s⟩

/-- Closed instance of `bashEscape_roundtrip` at concrete inputs. -/
theorem bashEscape_roundtrip_witness :
    decode (bashEscape "café".data) = "café".data
    ∧ bashEscape "abc".data = "abc".data :=
  ⟨(bashEscape_roundtrip "café".data (by decide) (by decide)).1,
   (bashEscape_roundtrip "abc".data (by decide) (by decide)).2 (by decide)⟩

/-- C2 counterexample — the round-trip law fails as stated on the code: the
single-character string U+1F600 (an astral code point) is escaped via
`charCodeAt(0)` to the lone high surrogate escape `\ud83d`, so decoding does
not reproduce the original string. -/
theorem bashEscape_roundtrip_counterexample :
    decode (bashEscape [Char.ofNat 128512]) ≠ [Char.ofNat 128512] := by decide

/-! ## All-ASCII output of the escaping transform -/

theorem encChar_all_ascii (c : Char) : (encChar c).all isAsciiChar = true := by
  by_cases hc : isAsciiChar c = true
  · rw [encChar, if_pos hc]
    simp [hc]
  · rw [encChar, if_neg hc]
    have h16 : ∀ n < 16, isAsciiChar (hexDigit n) = true := by decide
    simp only [hex4, List.all_cons, List.all_nil, Bool.and_true, Bool.and_eq_true]
    refine ⟨by decide, by decide, ?_, ?_, ?_, ?_⟩ <;>
      exact h16 _ (Nat.mod_lt _ (by omega))

theorem bashEscape_all_ascii_aux (s : List Char) :
    (bashEscape s).all isAsciiChar = true := by
  induction s with
  | nil => rfl
  | cons c t ih => rw [bashEscape, List.all_append, encChar_all_ascii c, ih]; rfl

/-- C10 — ASCII-only output: for every input string, every character of the
escaping transform's output is ASCII, and so is every character of the
generated default-server-name line built from it. -/
theorem bashEscape_ascii_output (s : List Char) :
    (bashEscape s).all isAsciiChar = true
    ∧ (nameLine s).all isAsciiChar = true := by
  refine ⟨bashEscape_all_ascii_aux s, ?_⟩
  unfold nameLine
  simp only [List.all_append, bashEscape_all_ascii_aux s]
  decide

/-! ## Lemmas about the script builder and account operations -/

theorem sanitize_error_eq {s : List Char} {e : DOError}
    (h : sanitizeDigitalOceanToken s = .error e) : e = .invalidCredential := by
  unfold sanitizeDigitalOceanToken at h
  by_cases hc : ((trim s).isEmpty || !(trim s).all isAllowedTokenChar) = true
  · rw [if_pos hc] at h
    cases h
    rfl
  · rw [if_neg hc] at h
    cases h

theorem getInstallScript_error {tok name : List Char} {st : ShadowboxSettings}
    {e : DOError} (h : sanitizeDigitalOceanToken tok = .error e) :
    getInstallScript tok name st = .error e := by
  unfold getInstallScript
  rw [h]
  rfl

theorem getInstallScript_ok {tok name : List Char} {st : ShadowboxSettings}
    {t : List Char} (h : sanitizeDigitalOceanToken tok = .ok t) :
    getInstallScript tok name st
      = .ok ("#!/bin/bash -eu\n".data ++ tokenLine t ++ imageSeg st ++ wtSeg st
          ++ sentrySeg st ++ metricsSeg st ++ nameLine name ++ SCRIPT) := by
  unfold getInstallScript
  rw [h]
  rfl

theorem append_ne_nil_left {l1 l2 : List Char} (h : l1 ≠ []) : l1 ++ l2 ≠ [] := by
  cases l1 with
  | nil => exact absurd rfl h
  | cons a t => simp

/-! ## Claims about `createServer`, `listServers`, `listLocations`, `getStatus` -/

/-- C3 — Creation with an unsanitizable token: when the account's token fails
sanitization, `createServer` returns the `InvalidCredential` failure with the
registry untouched and with an empty provider-call trace (zero provider
invocations). -/
theorem createServer_invalid_token (acct : DigitalOceanAccount) (region : Region)
    (name : List Char) (keyPair : KeyPair)
    (resp : Except TransportError DropletInfo) (e : DOError)
    (h : sanitizeDigitalOceanToken acct.accessToken = .error e) :
    createServer acct region name keyPair resp
      = ⟨.error .invalidCredential, acct, []⟩ := by
  have he := sanitize_error_eq h
  subst he
  unfold createServer
  rw [getInstallScript_error h]

/-- Closed instance of `createServer_invalid_token` at a token containing a
single quote character. -/
theorem createServer_invalid_token_witness :
    createServer
        ⟨"acc".data, "a'b".data, ⟨"img".data, "m".data, none, none⟩, false, []⟩
        ⟨"nyc1".data⟩ "srv".data ⟨"pub".data, "priv".data⟩ (.ok ⟨42⟩)
      = ⟨.error .invalidCredential,
         ⟨"acc".data, "a'b".data, ⟨"img".data, "m".data, none, none⟩, false, []⟩,
         []⟩ :=
  createServer_invalid_token _ _ _ _ _ .invalidCredential (by decide)

/-- C4 — Successful creation appends one record: with a sanitizable token and
a successful provider response, `createServer` returns the record wrapped from
the returned droplet, appends exactly that record after all previously held
ones, and the record is keyed by account id, colon, provider instance id. -/
theorem createServer_success (acct : DigitalOceanAccount) (region : Region)
    (name : List Char) (keyPair : KeyPair) (droplet : DropletInfo)
    (t : List Char) (h : sanitizeDigitalOceanToken acct.accessToken = .ok t) :
    (createServer acct region name keyPair (.ok droplet)).result
        = .ok (makeServer acct.id droplet)
    ∧ (createServer acct region name keyPair (.ok droplet)).account.servers
        = acct.servers ++ [makeServer acct.id droplet]
    ∧ (makeServer acct.id droplet).id = acct.id ++ ':' :: natChars droplet.id
    ∧ (makeServer acct.id droplet).dropletInfo = droplet := by
  unfold createServer
  rw [getInstallScript_ok h]
  exact ⟨rfl, rfl, rfl, rfl⟩

/-- Closed instance of `createServer_success` at concrete inputs. -/
theorem createServer_success_witness :
    (createServer
        ⟨"acc".data, "tok".data, ⟨"img".data, "m".data, none, none⟩, false,
          [⟨"old".data, ⟨7⟩⟩]⟩
        ⟨"nyc1".data⟩ "srv".data ⟨"pub".data, "priv".data⟩ (.ok ⟨42⟩)).result
        = .ok (makeServer "acc".data ⟨42⟩)
    ∧ (createServer
        ⟨"acc".data, "tok".data, ⟨"img".data, "m".data, none, none⟩, false,
          [⟨"old".data, ⟨7⟩⟩]⟩
        ⟨"nyc1".data⟩ "srv".data ⟨"pub".data, "priv".data⟩ (.ok ⟨42⟩)).account.servers
        = [⟨"old".data, ⟨7⟩⟩] ++ [makeServer "acc".data ⟨42⟩]
    ∧ (makeServer "acc".data ⟨42⟩).id = "acc".data ++ ':' :: natChars 42
    ∧ (makeServer "acc".data ⟨42⟩).dropletInfo = ⟨42⟩ :=
  createServer_success _ _ _ _ _ "tok".data (by decide)

/-- C5 — Refresh replaces the registry: a successful `listServers` with
`fetchFromHost = true` replaces the whole registry by freshly wrapped records
built from the provider's tag-filtered droplet list (whatever was held before
is discarded), returns that new list, and issues exactly the tag query. -/
theorem listServers_refresh (acct : DigitalOceanAccount)
    (droplets : List DropletInfo) :
    listServers acct true (.ok droplets)
      = ⟨.ok (droplets.map (makeServer acct.id)),
         { acct with servers := droplets.map (makeServer acct.id) },
         [.getDropletsByTag SHADOWBOX_TAG]⟩ := rfl

/-- C6 — Region availability: `listLocations` output is parallel to its input
(in length and order); the entry for each input region carries its slug and is
available exactly when the region is available and its sizes include
`MACHINE_SIZE`. -/
theorem listLocations_spec (regions : List RegionInfo) :
    (listLocations regions).length = regions.length
    ∧ ∀ i : Nat, ∀ info ∈ regions[i]?, ∀ opt ∈ (listLocations regions)[i]?,
        opt.cloudLocation.id = info.slug
        ∧ (opt.available = true ↔
            info.available = true ∧ MACHINE_SIZE ∈ info.sizes) := by
  constructor
  · simp [listLocations]
  · intro i info hinfo opt hopt
    rw [Option.mem_def] at hinfo
    rw [Option.mem_def, listLocations, List.getElem?_map, hinfo] at hopt
    obtain rfl := Option.some.inj hopt
    refine ⟨rfl, ?_⟩
    rw [Bool.and_eq_true, List.elem_iff]

/-- Closed instance of `listLocations_spec` at a concrete region list. -/
theorem listLocations_spec_witness :
    (listLocations [⟨"nyc1".data, true, [MACHINE_SIZE]⟩]).length = 1
    ∧ (∀ opt ∈ (listLocations [⟨"nyc1".data, true, [MACHINE_SIZE]⟩])[0]?,
        opt.cloudLocation.id = "nyc1".data
        ∧ (opt.available = true ↔ true = true ∧ MACHINE_SIZE ∈ [MACHINE_SIZE])) :=
  ⟨(listLocations_spec [⟨"nyc1".data, true, [MACHINE_SIZE]⟩]).1,
   fun opt hopt =>
     (listLocations_spec [⟨"nyc1".data, true, [MACHINE_SIZE]⟩]).2 0
       ⟨"nyc1".data, true, [MACHINE_SIZE]⟩ rfl opt hopt⟩

/-- C7 — Status precedence: the raw status `active` resolves to ACTIVE
whatever the email flag; any other raw status resolves to EMAIL_UNVERIFIED
when the email is unverified and to MISSING_BILLING_INFORMATION when it is
verified. -/
theorem getStatus_spec (email st : List Char) (ev : Bool) :
    (st = "active".data → getStatus ⟨email, st, ev⟩ = .ACTIVE)
    ∧ (st ≠ "active".data → ev = false →
        getStatus ⟨email, st, ev⟩ = .EMAIL_UNVERIFIED)
    ∧ (st ≠ "active".data → ev = true →
        getStatus ⟨email, st, ev⟩ = .MISSING_BILLING_INFORMATION) := by
  refine ⟨?_, ?_, ?_⟩
  · intro h
    simp [getStatus, h]
  · intro h hev
    subst hev
    simp [getStatus, h]
  · intro h hev
    subst hev
    simp [getStatus, h]

/-- Closed instance of `getStatus_spec` at the three spec examples. -/
theorem getStatus_spec_witness :
    getStatus ⟨[], "active".data, false⟩ = .ACTIVE
    ∧ getStatus ⟨[], "pending".data, false⟩ = .EMAIL_UNVERIFIED
    ∧ getStatus ⟨[], "pending".data, true⟩ = .MISSING_BILLING_INFORMATION :=
  ⟨(getStatus_spec [] "active".data false).1 rfl,
   (getStatus_spec [] "pending".data false).2.1 (by decide) rfl,
   (getStatus_spec [] "pending".data true).2.2 (by decide) rfl⟩

/-- C8 (amended) — Optional exports under truthiness: the generated script is
the fixed concatenation in which the refresh-interval export fragment is
non-empty exactly when the field is present with a non-zero value (in which
case it is the export line for that value), and the error-reporting-URL
export fragment is non-empty exactly when the field is present with a
non-empty value. -/
theorem installScript_optional_exports (st : ShadowboxSettings)
    (token name t : List Char) (h : sanitizeDigitalOceanToken token = .ok t) :
    getInstallScript token name st
      = .ok ("#!/bin/bash -eu\n".data ++ tokenLine t ++ imageSeg st ++ wtSeg st
          ++ sentrySeg st ++ metricsSeg st ++ nameLine name ++ SCRIPT)
    ∧ (wtSeg st ≠ [] ↔ ∃ n, st.watchtowerRefreshSeconds = some n ∧ n ≠ 0)
    ∧ (∀ n, st.watchtowerRefreshSeconds = some n → n ≠ 0 →
        wtSeg st = "export WATCHTOWER_REFRESH_SECONDS='".data ++ natChars n
          ++ "'\n".data)
    ∧ (sentrySeg st ≠ [] ↔ ∃ u, st.sentryApiUrl = some u ∧ u ≠ [])
    ∧ (∀ u, st.sentryApiUrl = some u → u ≠ [] →
        sentrySeg st = "export SENTRY_API_URL='".data ++ u ++ "'\n".data) := by
  refine ⟨getInstallScript_ok h, ?_, ?_, ?_, ?_⟩
  · rcases hwt : st.watchtowerRefreshSeconds with _ | n
    · simp [wtSeg, hwt]
    · by_cases hn : n = 0
      · subst hn
        simp [wtSeg, hwt]
      · simp only [wtSeg, hwt, if_neg hn, ne_eq, Option.some.injEq]
        constructor
        · intro _
          exact ⟨n, rfl, hn⟩
        · intro _
          exact append_ne_nil_left (append_ne_nil_left (by decide))
  · intro n hn hnz
    simp only [wtSeg, hn, if_neg hnz]
  · rcases hs : st.sentryApiUrl with _ | u
    · simp [sentrySeg, hs]
    · by_cases hu : u = []
      · subst hu
        simp [sentrySeg, hs]
      · simp only [sentrySeg, hs,
          if_neg (fun hc => hu (List.isEmpty_iff.mp hc)), ne_eq,
          Option.some.injEq]
        constructor
        · intro _
          exact ⟨u, rfl, hu⟩
        · intro _
          exact append_ne_nil_left (append_ne_nil_left (by decide))
  · intro u hu hune
    simp only [sentrySeg, hu,
      if_neg (fun hc => hune (List.isEmpty_iff.mp hc))]

/-- Closed instance of `installScript_optional_exports`. -/
theorem installScript_optional_exports_witness :
    getInstallScript "tok".data "n".data
        ⟨"img".data, "m".data, some "s".data, some 5⟩
      = .ok ("#!/bin/bash -eu\n".data ++ tokenLine "tok".data
          ++ imageSeg ⟨"img".data, "m".data, some "s".data, some 5⟩
          ++ wtSeg ⟨"img".data, "m".data, some "s".data, some 5⟩
          ++ sentrySeg ⟨"img".data, "m".data, some "s".data, some 5⟩
          ++ metricsSeg ⟨"img".data, "m".data, some "s".data, some 5⟩
          ++ nameLine "n".data ++ SCRIPT)
    ∧ (wtSeg ⟨"img".data, "m".data, some "s".data, some 5⟩ ≠ [] ↔
        ∃ n, (some 5 : Option Nat) = some n ∧ n ≠ 0)
    ∧ (∀ n, (some 5 : Option Nat) = some n → n ≠ 0 →
        wtSeg ⟨"img".data, "m".data, some "s".data, some 5⟩
          = "export WATCHTOWER_REFRESH_SECONDS='".data ++ natChars n ++ "'\n".data)
    ∧ (sentrySeg ⟨"img".data, "m".data, some "s".data, some 5⟩ ≠ [] ↔
        ∃ u, (some "s".data : Option (List Char)) = some u ∧ u ≠ [])
    ∧ (∀ u, (some "s".data : Option (List Char)) = some u → u ≠ [] →
        sentrySeg ⟨"img".data, "m".data, some "s".data, some 5⟩
          = "export SENTRY_API_URL='".data ++ u ++ "'\n".data) :=
  installScript_optional_exports ⟨"img".data, "m".data, some "s".data, some 5⟩
    "tok".data "n".data "tok".data (by decide)

set_option maxRecDepth 16384 in
/-- C8 counterexample — the export line is not always present when the field
is present: a bundle whose refresh interval is present with value `0` yields
a script in which the `WATCHTOWER_REFRESH_SECONDS` export does not occur. -/
theorem installScript_optional_counterexample :
    (⟨"img".data, "m".data, none, some 0⟩ : ShadowboxSettings).watchtowerRefreshSeconds
        = some 0
    ∧ getInstallScript "tok".data "n".data ⟨"img".data, "m".data, none, some 0⟩
        = .ok (scriptOf "tok".data "n".data ⟨"img".data, "m".data, none, some 0⟩)
    ∧ ¬ ("WATCHTOWER_REFRESH_SECONDS".data
        <:+: scriptOf "tok".data "n".data ⟨"img".data, "m".data, none, some 0⟩) := by
  refine ⟨rfl, by decide, by decide⟩

/-- C9 — Failure leaves the registry untouched: a `createServer` that fails at
sanitization surfaces `InvalidCredential` and leaves the account state exactly
as it was; one that fails at the provider's create-instance call propagates
that provider error unchanged and also leaves the account state unchanged. -/
theorem createServer_failure_propagation (acct : DigitalOceanAccount)
    (region : Region) (name : List Char) (keyPair : KeyPair)
    (resp : Except TransportError DropletInfo) :
    ((∃ e, sanitizeDigitalOceanToken acct.accessToken = .error e) →
      (createServer acct region name keyPair resp).result
          = .error .invalidCredential
      ∧ (createServer acct region name keyPair resp).account = acct)
    ∧ (∀ t e, sanitizeDigitalOceanToken acct.accessToken = .ok t →
      resp = .error e →
      (createServer acct region name keyPair resp).result = .error (.transport e)
      ∧ (createServer acct region name keyPair resp).account = acct) := by
  constructor
  · rintro ⟨e, he⟩
    obtain rfl := sanitize_error_eq he
    unfold createServer
    rw [getInstallScript_error he]
    exact ⟨rfl, rfl⟩
  · rintro t e ht rfl
    unfold createServer
    rw [getInstallScript_ok ht]
    exact ⟨rfl, rfl⟩

/-- Closed instance of `createServer_failure_propagation` on both failure
paths. -/
theorem createServer_failure_propagation_witness :
    ((createServer ⟨"acc".data, "a b".data, ⟨"img".data, "m".data, none, none⟩,
        false, []⟩ ⟨"nyc1".data⟩ "srv".data ⟨"pub".data, "priv".data⟩
        (.ok ⟨42⟩)).result = .error .invalidCredential
      ∧ (createServer ⟨"acc".data, "a b".data, ⟨"img".data, "m".data, none, none⟩,
          false, []⟩ ⟨"nyc1".data⟩ "srv".data ⟨"pub".data, "priv".data⟩
          (.ok ⟨42⟩)).account
        = ⟨"acc".data, "a b".data, ⟨"img".data, "m".data, none, none⟩, false, []⟩)
    ∧ ((createServer ⟨"acc".data, "tok".data, ⟨"img".data, "m".data, none, none⟩,
        false, []⟩ ⟨"nyc1".data⟩ "srv".data ⟨"pub".data, "priv".data⟩
        (.error ⟨3⟩)).result = .error (.transport ⟨3⟩)
      ∧ (createServer ⟨"acc".data, "tok".data, ⟨"img".data, "m".data, none, none⟩,
          false, []⟩ ⟨"nyc1".data⟩ "srv".data ⟨"pub".data, "priv".data⟩
          (.error ⟨3⟩)).account
        = ⟨"acc".data, "tok".data, ⟨"img".data, "m".data, none, none⟩, false, []⟩) :=
  ⟨(createServer_failure_propagation _ _ _ _ _).1 ⟨.invalidCredential, by decide⟩,
   (createServer_failure_propagation _ _ _ _ _).2 "tok".data ⟨3⟩ (by decide) rfl⟩

end Outline
